import Mathlib

/-!
Verification of the Cyber Range instance-configuration system.

The development shallowly embeds the Go sources of the repository:

* `internal/server/server.go` — MAC normalization and matching, the
  cloud-init declaration parser, inventory load/reload, and the three
  HTTP handlers (`/config`, `/reload`, `/status`);
* `cmd/client/*/main.go` — the bounded-retry configuration fetch loop;
* `internal/client/linux/network.go`, `internal/client/openwrt/network.go`
  and the Windows applier — the per-backend network appliers;
* `internal/client/mac.go` — client-side MAC discovery.

Strings are modelled as lists of characters; external effects (file
reads, YAML parsing, command execution, HTTP transport) are modelled as
explicit parameters, so that every definition is executable.
-/

namespace CyberRange

/-- Strings are modelled as lists of characters. -/
abbrev Str := List Char

/-- ASCII lower-casing of a string, character by character.  `Char.toLower`
matches what Go's `strings.ToLower` does on the ASCII range this system
uses (bytes 65–90 map down by 32, everything else is untouched). -/
def strToLower (s : Str) : Str := s.map Char.toLower

/-- ASCII upper-casing of a string, embedding Go's `strings.ToUpper` on
the ASCII range (bytes 97–122 map up by 32). -/
def strToUpper (s : Str) : Str := s.map Char.toUpper

/-- ASCII white-space test, embedding the character class that Go's
`strings.TrimSpace` strips on ASCII input: tab, newline, vertical tab,
form feed, carriage return and space. -/
def isSpaceChar (c : Char) : Bool :=
  c.toNat = 9 || c.toNat = 10 || c.toNat = 11 || c.toNat = 12 ||
  c.toNat = 13 || c.toNat = 32

/-- Go `strings.TrimSpace`: drop white space from both ends. -/
def trimSpace (s : Str) : Str :=
  ((s.dropWhile isSpaceChar).reverse.dropWhile isSpaceChar).reverse

/-- Go `strings.EqualFold` on the ASCII range: equality up to case. -/
def equalFold (a b : Str) : Bool :=
  decide (strToLower a = strToLower b)

/-- Go `strings.ReplaceAll(s, "-", ":")`: with a single-character pattern
this is a character-wise replacement. -/
def replaceDashColon (s : Str) : Str :=
  s.map fun c => if c = '-' then ':' else c

/-- Server-side MAC normalization (`server.go` line 100):
`strings.ToLower(strings.ReplaceAll(mac, "-", ":"))`. -/
def normalizeMac (s : Str) : Str := strToLower (replaceDashColon s)

/-- Go `strings.Contains s pat`, used for the `hwaddr` key scan. -/
def containsSub (s pat : Str) : Bool := decide (pat <:+: s)

/-- One route entry of a cloud-init declaration (`config.Route`).  The Go
field `To` is called `dest` here because `to` is reserved in Lean. -/
structure Route where
  dest : Str
  via : Str
deriving DecidableEq, Repr

/-- The canonical per-interface model (`config.NetworkConfig`). -/
structure NetworkConfig where
  dhcp : Bool
  address : Str
  gateway : Str
  dns : List Str
  routes : List Route
deriving DecidableEq, Repr

/-- One declared ethernet device (`config.CloudInitEthernet`): DHCP flag,
address list, gateway field, route list and nameserver addresses. -/
structure CloudInitEthernet where
  dhcp4 : Bool
  addresses : List Str
  gateway4 : Str
  routes : List Route
  nameservers : List Str
deriving DecidableEq, Repr

/-- A parsed cloud-init document (`config.CloudInitNetwork`): the named
ethernet devices.  Go iterates a map; the embedding keeps an association
list. -/
structure CloudInitNetwork where
  ethernets : List (Str × CloudInitEthernet)
deriving DecidableEq, Repr

/-- One inventory record (`config.LXDInstance`): a name and a free-form
string-keyed metadata map, kept as an association list. -/
structure LXDInstance where
  name : Str
  config : List (Str × Str)
deriving DecidableEq, Repr

/-- Go map indexing `inst.Config[key]`: the zero value (the empty string)
when the key is absent. -/
def lookupConfig (inst : LXDInstance) (key : Str) : Str :=
  match inst.config.find? (fun kv => decide (kv.1 = key)) with
  | some kv => kv.2
  | none => []

/-- The substring that marks a metadata key as MAC-bearing
(`strings.Contains(key, "hwaddr")` in `findInstanceByMAC`). -/
def hwaddrKey : Str := "hwaddr".toList

/-- Does one record claim the given (already normalized) MAC?  This is the
inner loop of `findInstanceByMAC` (`server.go` lines 154–160): some
metadata key contains `hwaddr` and its value equals the MAC up to case. -/
def hasMacKey (inst : LXDInstance) (mac : Str) : Bool :=
  inst.config.any fun kv => containsSub kv.1 hwaddrKey && equalFold kv.2 mac

/-- `findInstanceByMAC` (`server.go` lines 149–163): scan the records in
inventory order and return the first one claiming the MAC. -/
def findInstanceByMAC (mac : Str) (instances : List LXDInstance) : Option LXDInstance :=
  instances.find? fun inst => hasMacKey inst mac

/-- Is a declared route the default route (`server.go` line 198)? -/
def isDefaultRoute (r : Route) : Bool :=
  decide (r.dest = "default".toList) || decide (r.dest = "0.0.0.0/0".toList)

/-- One iteration of the route loop of `parseAllNetworkConfigs`
(`server.go` lines 197–207): a default route becomes the gateway when no
gateway is set yet and is never appended; any other route is appended. -/
def routeStep (acc : Str × List Route) (r : Route) : Str × List Route :=
  if isDefaultRoute r then
    if acc.1 = [] then (r.via, acc.2) else acc
  else
    (acc.1, acc.2 ++ [r])

/-- The per-interface body of `parseAllNetworkConfigs` (`server.go` lines
184–212): copy the DHCP flag, take the first address, seed the gateway
from `gateway4` (the empty string when absent), fold the routes, copy the
nameservers. -/
def parseEthernet (eth : CloudInitEthernet) : NetworkConfig :=
  let address := match eth.addresses with
    | [] => []
    | a :: _ => a
  let p := eth.routes.foldl routeStep (eth.gateway4, [])
  ⟨eth.dhcp4, address, p.1, eth.nameservers, p.2⟩

/-- The metadata key holding the raw declaration. -/
def networkConfigKey : Str := "cloud-init.network-config".toList

/-- The literal the DHCP shortcut compares against. -/
def dhcpLiteral : Str := "DHCP".toList

/-- `parseAllNetworkConfigs` (`server.go` lines 166–216).  The YAML
library is external to the repository, so the structured parse is an
oracle argument `yamlParse`; `none` stands for a parse error, in which
case the function degrades to the empty map exactly as the Go code does.
The DHCP shortcut is the literal Go condition
`strings.TrimSpace(strings.ToUpper(raw)) == "DHCP"`. -/
def parseAllNetworkConfigs (yamlParse : Str → Option CloudInitNetwork)
    (inst : LXDInstance) : List (Str × NetworkConfig) :=
  let raw := lookupConfig inst networkConfigKey
  if trimSpace (strToUpper raw) = dhcpLiteral then []
  else
    match yamlParse raw with
    | none => []
    | some ci => ci.ethernets.map fun p => (p.1, parseEthernet p.2)

/-! ### Characterization of the route fold -/

theorem routes_foldl_snd (g : Str) (acc : List Route) (rs : List Route) :
    (rs.foldl routeStep (g, acc)).2 = acc ++ rs.filter (fun r => !(isDefaultRoute r)) := by
  induction rs generalizing g acc with
  | nil => simp
  | cons r t ih =>
    by_cases hr : isDefaultRoute r
    · by_cases hg : g = []
      · simp [List.foldl_cons, routeStep, hr, hg, ih]
      · simp [List.foldl_cons, routeStep, hr, hg, ih]
    · simp [List.foldl_cons, routeStep, hr, ih]

theorem routes_foldl_fst_of_ne (g : Str) (acc : List Route) (rs : List Route)
    (hg : g ≠ []) : (rs.foldl routeStep (g, acc)).1 = g := by
  induction rs generalizing acc with
  | nil => rfl
  | cons r t ih =>
    by_cases hr : isDefaultRoute r
    · simp only [List.foldl_cons, routeStep, hr, if_pos, if_neg hg, ite_true]
      exact ih acc
    · simp only [List.foldl_cons, routeStep, hr]
      simp only [Bool.false_eq_true, if_false]
      exact ih (acc ++ [r])

theorem routes_foldl_fst_nil (acc : List Route) (rs : List Route)
    (hvia : ∀ r ∈ rs, r.via ≠ []) :
    (rs.foldl routeStep ([], acc)).1 =
      (match rs.find? isDefaultRoute with
        | some r => r.via
        | none => []) := by
  induction rs generalizing acc with
  | nil => rfl
  | cons r t ih =>
    by_cases hr : isDefaultRoute r
    · simp only [List.foldl_cons, routeStep, hr, ite_true, List.find?_cons_of_pos _ hr]
      exact routes_foldl_fst_of_ne _ _ _ (hvia r (List.mem_cons_self r t))
    · simp only [List.foldl_cons, routeStep, hr, List.find?_cons_of_neg _ hr]
      simp only [Bool.false_eq_true, if_false]
      exact ih (acc ++ [r]) (fun x hx => hvia x (List.mem_cons_of_mem r hx))

/-- C1: for every interface declared in a structured declaration that the
parser accepts, the resulting NetworkConfig takes `gateway` from the
declared gateway field when present and otherwise from the via of the
first default route (`default` or `0.0.0.0/0`), default routes are
excluded from `routes` while all other routes pass through in order,
`dns` is the declared nameserver list in order, and `address` is the
first declared address.  Route vias are assumed non-empty, the spec's
validity invariant on declared routes. -/
theorem parseAllNetworkConfigs_interface_spec
    (yamlParse : Str → Option CloudInitNetwork) (inst : LXDInstance)
    (ci : CloudInitNetwork)
    (hparse : yamlParse (lookupConfig inst networkConfigKey) = some ci)
    (hnd : trimSpace (strToUpper (lookupConfig inst networkConfigKey)) ≠ dhcpLiteral)
    (n : Str) (eth : CloudInitEthernet) (hmem : (n, eth) ∈ ci.ethernets)
    (hvia : ∀ r ∈ eth.routes, r.via ≠ []) :
    (n, parseEthernet eth) ∈ parseAllNetworkConfigs yamlParse inst ∧
    (parseEthernet eth).gateway =
      (if eth.gateway4 ≠ [] then eth.gateway4
       else
        match eth.routes.find? isDefaultRoute with
        | some r => r.via
        | none => []) ∧
    (parseEthernet eth).routes = eth.routes.filter (fun r => !(isDefaultRoute r)) ∧
    (parseEthernet eth).dns = eth.nameservers ∧
    (parseEthernet eth).address = eth.addresses.headD [] := by
  refine ⟨?_, ?_, ?_, ?_, ?_⟩
  · simp only [parseAllNetworkConfigs]
    rw [if_neg hnd, hparse]
    exact List.mem_map_of_mem _ hmem
  · show (eth.routes.foldl routeStep (eth.gateway4, [])).1 = _
    by_cases hg : eth.gateway4 = []
    · rw [hg, if_neg (by simp), routes_foldl_fst_nil [] eth.routes hvia]
    · rw [if_pos hg, routes_foldl_fst_of_ne _ _ _ hg]
  · show (eth.routes.foldl routeStep (eth.gateway4, [])).2 = _
    rw [routes_foldl_snd, List.nil_append]
  · rfl
  · show (match eth.addresses with | [] => [] | a :: _ => a) = _
    cases eth.addresses <;> rfl

/-- The declared interface of the spec's static-route scenario: one
address, no gateway field, a default route via 10.0.1.1 and one extra
route. -/
def scenarioEth : CloudInitEthernet :=
  ⟨false, ["10.0.1.10/24".toList], [],
    [⟨"default".toList, "10.0.1.1".toList⟩,
     ⟨"10.0.2.0/24".toList, "10.0.1.5".toList⟩], []⟩

/-- The scenario declaration document with a single interface. -/
def scenarioDoc : CloudInitNetwork := ⟨[("eth0".toList, scenarioEth)]⟩

/-- An inventory record carrying the scenario declaration. -/
def scenarioInst : LXDInstance :=
  ⟨"team1-host".toList, [(networkConfigKey, "version: 2".toList)]⟩

/-- A parse oracle that yields the scenario document. -/
def scenarioParse : Str → Option CloudInitNetwork := fun _ => some scenarioDoc

/-- Witness for C1 at the spec's scenario: gateway comes from the default
route, the extra route is the only one kept, and the address is the
declared CIDR. -/
theorem parseAllNetworkConfigs_interface_spec_witness :
    (("eth0".toList, parseEthernet scenarioEth) ∈
        parseAllNetworkConfigs scenarioParse scenarioInst ∧
      (parseEthernet scenarioEth).gateway =
        (if scenarioEth.gateway4 ≠ [] then scenarioEth.gateway4
         else
          match scenarioEth.routes.find? isDefaultRoute with
          | some r => r.via
          | none => []) ∧
      (parseEthernet scenarioEth).routes =
        scenarioEth.routes.filter (fun r => !(isDefaultRoute r)) ∧
      (parseEthernet scenarioEth).dns = scenarioEth.nameservers ∧
      (parseEthernet scenarioEth).address = scenarioEth.addresses.headD []) ∧
    (parseEthernet scenarioEth).gateway = "10.0.1.1".toList ∧
    (parseEthernet scenarioEth).address = "10.0.1.10/24".toList ∧
    (parseEthernet scenarioEth).routes = [⟨"10.0.2.0/24".toList, "10.0.1.5".toList⟩] :=
  ⟨parseAllNetworkConfigs_interface_spec scenarioParse scenarioInst scenarioDoc
      rfl (by decide) "eth0".toList scenarioEth (by decide) (by decide),
    by decide, by decide, by decide⟩

/-! ### Case conversion and white space -/

theorem char_toNat_ofNat_valid (n : Nat) (h : n < 55296) :
    (Char.ofNat n).toNat = n := by
  rw [Char.ofNat, dif_pos (Or.inl h)]
  rfl

theorem isSpaceChar_toUpper (c : Char) :
    isSpaceChar (Char.toUpper c) = isSpaceChar c := by
  unfold Char.toUpper
  dsimp only
  split_ifs with h
  · have ht : (Char.ofNat (c.toNat - 32)).toNat = c.toNat - 32 :=
      char_toNat_ofNat_valid _ (by omega)
    have h1 : isSpaceChar (Char.ofNat (c.toNat - 32)) = false := by
      simp only [isSpaceChar, ht, Bool.or_eq_false_iff, decide_eq_false_iff_not]
      omega
    have h2 : isSpaceChar c = false := by
      simp only [isSpaceChar, Bool.or_eq_false_iff, decide_eq_false_iff_not]
      omega
    rw [h1, h2]
  · rfl

theorem toUpper_toLower (c : Char) :
    Char.toUpper (Char.toLower c) = Char.toUpper c := by
  by_cases h : c.toNat ≥ 65 ∧ c.toNat ≤ 90
  · have hl : Char.toLower c = Char.ofNat (c.toNat + 32) := by
      unfold Char.toLower
      dsimp only
      rw [if_pos h]
    have ht : (Char.ofNat (c.toNat + 32)).toNat = c.toNat + 32 :=
      char_toNat_ofNat_valid _ (by omega)
    have hu1 : Char.toUpper (Char.ofNat (c.toNat + 32)) = c := by
      unfold Char.toUpper
      dsimp only
      rw [ht, if_pos (by omega)]
      have harg : c.toNat + 32 - 32 = c.toNat := by omega
      rw [harg, Char.ofNat_toNat]
    have hu2 : Char.toUpper c = c := by
      unfold Char.toUpper
      dsimp only
      rw [if_neg (by omega)]
    rw [hl, hu1, hu2]
  · have hl : Char.toLower c = c := by
      unfold Char.toLower
      dsimp only
      rw [if_neg h]
    rw [hl]

theorem trimSpace_strToUpper (s : Str) :
    trimSpace (strToUpper s) = strToUpper (trimSpace s) := by
  have hdrop : ∀ t : Str, (t.map Char.toUpper).dropWhile isSpaceChar =
      (t.dropWhile isSpaceChar).map Char.toUpper := by
    intro t
    have hfun : isSpaceChar ∘ Char.toUpper = isSpaceChar :=
      funext isSpaceChar_toUpper
    rw [List.dropWhile_map, hfun]
  simp only [trimSpace, strToUpper]
  rw [hdrop, ← List.map_reverse, hdrop, ← List.map_reverse]

theorem strToUpper_strToLower (s : Str) :
    strToUpper (strToLower s) = strToUpper s := by
  simp only [strToUpper, strToLower, List.map_map]
  congr 1
  funext c
  exact toUpper_toLower c

/-- C9: when the trimmed declaration equals `DHCP` up to case, the parser
returns the empty interface map, whatever the structured parse oracle
would have said. -/
theorem parseAllNetworkConfigs_dhcp_literal
    (yamlParse : Str → Option CloudInitNetwork) (inst : LXDInstance)
    (h : equalFold (trimSpace (lookupConfig inst networkConfigKey)) dhcpLiteral = true) :
    parseAllNetworkConfigs yamlParse inst = [] := by
  have h' : strToLower (trimSpace (lookupConfig inst networkConfigKey)) =
      strToLower dhcpLiteral := by
    simpa [equalFold] using h
  have hup : trimSpace (strToUpper (lookupConfig inst networkConfigKey)) = dhcpLiteral := by
    rw [trimSpace_strToUpper]
    calc strToUpper (trimSpace (lookupConfig inst networkConfigKey))
        = strToUpper (strToLower (trimSpace (lookupConfig inst networkConfigKey))) :=
          (strToUpper_strToLower _).symm
      _ = strToUpper (strToLower dhcpLiteral) := by rw [h']
      _ = strToUpper dhcpLiteral := strToUpper_strToLower _
      _ = dhcpLiteral := by decide
  simp [parseAllNetworkConfigs, hup]

/-- Witness for C9: the declaration `" dhcp "` (mixed case, padded) yields
the empty interface map even when the parse oracle would produce the
scenario document. -/
theorem parseAllNetworkConfigs_dhcp_literal_witness :
    parseAllNetworkConfigs (fun _ => some ⟨[("eth9".toList, scenarioEth)]⟩)
      ⟨"box".toList, [(networkConfigKey, " dHcP ".toList)]⟩ = [] :=
  parseAllNetworkConfigs_dhcp_literal _ _ (by decide)

/-! ### Configuration service state and handlers -/

/-- The response body of `/config` (`config.ConfigResponse`): hostname,
the primary NetworkConfig, and the full per-interface map. -/
structure ConfigResponse where
  hostname : Str
  network : NetworkConfig
  networks : List (Str × NetworkConfig)
deriving DecidableEq, Repr

/-- The mutable server state (`Server` in `server.go`): the inventory
snapshot and the activity timestamp.  Time is an abstract counter. -/
structure ServerState where
  instances : List LXDInstance
  lastActivity : Nat
deriving DecidableEq, Repr

/-- `loadInstances` (`server.go` lines 44–62).  Reading and JSON-decoding
the inventory file is external, so its outcome is the argument
`readResult`; an error returns before `s.instances` is assigned, success
replaces the whole snapshot.  The second component is the reported
error. -/
def loadInstances (readResult : Except Str (List LXDInstance))
    (old : List LXDInstance) : List LXDInstance × Option Str :=
  match readResult with
  | Except.error e => (old, some e)
  | Except.ok new => (new, none)

/-- A MAC is resolvable in a snapshot when the matcher finds a record. -/
def resolvable (mac : Str) (instances : List LXDInstance) : Bool :=
  (findInstanceByMAC mac instances).isSome

/-- The all-DHCP default used when a declaration yields no interfaces
(`server.go` line 127). -/
def defaultNetworkConfig : NetworkConfig := ⟨true, [], [], [], []⟩

/-- The pure part of `HandleConfig` after `updateActivity` (`server.go`
lines 87–145): method check, missing-parameter check, MAC normalization,
matching, parsing, response assembly.  The result is the HTTP status and
the body on success. -/
def configRequestResult (yamlParse : Str → Option CloudInitNetwork)
    (method : Str) (macParam : Str) (instances : List LXDInstance) :
    Nat × Option ConfigResponse :=
  if method ≠ "GET".toList then (405, none)
  else if macParam = [] then (400, none)
  else
    match findInstanceByMAC (normalizeMac macParam) instances with
    | none => (404, none)
    | some inst =>
      let networks := parseAllNetworkConfigs yamlParse inst
      let primary := match networks with
        | [] => defaultNetworkConfig
        | (_, c) :: _ => c
      (200, some ⟨inst.name, primary, networks⟩)

/-- `HandleConfig` (`server.go` lines 84–146): `updateActivity` runs
first, and nothing after it mutates the state. -/
def handleConfig (yamlParse : Str → Option CloudInitNetwork) (now : Nat)
    (method : Str) (macParam : Str) (st : ServerState) :
    ServerState × Nat × Option ConfigResponse :=
  (⟨st.instances, now⟩, configRequestResult yamlParse method macParam st.instances)

/-- `HandleReload` (`server.go` lines 228–244): `updateActivity` first,
then the method check, then `Reload` = `loadInstances`; a load error
answers 500 and keeps the snapshot, success answers 200. -/
def handleReload (now : Nat) (method : Str)
    (readResult : Except Str (List LXDInstance)) (st : ServerState) :
    ServerState × Nat :=
  if method ≠ "POST".toList then (⟨st.instances, now⟩, 405)
  else
    match loadInstances readResult st.instances with
    | (kept, some _) => (⟨kept, now⟩, 500)
    | (new, none) => (⟨new, now⟩, 200)

/-- `HandleStatus` (`server.go` lines 247–267): the method check, then
the record count and timestamps are read.  No call to `updateActivity`
appears in this handler, so the state passes through unchanged. -/
def handleStatus (now : Nat) (method : Str) (st : ServerState) :
    ServerState × Nat :=
  if method ≠ "GET".toList then (st, 405) else (st, 200)

/-- C2: reload is all-or-nothing.  A failed read or parse leaves the
snapshot untouched — every MAC resolves exactly as before, to the same
record — and the handler reports 500; a successful load of a list of
records makes precisely the MACs claimed by those records resolvable. -/
theorem reload_all_or_nothing (old : List LXDInstance) :
    (∀ e : Str, loadInstances (Except.error e) old = (old, some e)) ∧
    (∀ e mac, findInstanceByMAC mac (loadInstances (Except.error e) old).1 =
        findInstanceByMAC mac old) ∧
    (∀ now e st, handleReload now "POST".toList (Except.error e) st =
        (⟨st.instances, now⟩, 500)) ∧
    (∀ new mac, loadInstances (Except.ok new) old = (new, none) ∧
      (resolvable mac (loadInstances (Except.ok new) old).1 = true ↔
        ∃ inst ∈ new, hasMacKey inst mac = true)) := by
  refine ⟨fun e => rfl, fun e mac => rfl, fun now e st => rfl, fun new mac => ⟨rfl, ?_⟩⟩
  simpa only [loadInstances, resolvable, findInstanceByMAC] using
    (@List.find?_isSome _ new (fun inst => hasMacKey inst mac))

/-- C5 counterexample: a `/status` request does not record the current
time; at time 5 with a stale timestamp 0 the state passes through
unchanged, while `/config` and `/reload` both would have stamped 5. -/
theorem handleStatus_leaves_activity :
    (handleStatus 5 "GET".toList ⟨[], 0⟩).1.lastActivity = 0 ∧
    (handleStatus 5 "GET".toList ⟨[], 0⟩).1.lastActivity ≠ 5 := by
  constructor
  · rfl
  · decide

/-- C5 amended: `/config` and `/reload` record the current time as
`lastActivity` before returning — on every path, including method
rejection, a missing parameter and not-found — while `/status` leaves
the state, and so the activity timestamp, untouched. -/
theorem activity_touch_per_handler (yamlParse : Str → Option CloudInitNetwork)
    (now : Nat) (method macParam : Str)
    (readResult : Except Str (List LXDInstance)) (st : ServerState) :
    (handleConfig yamlParse now method macParam st).1.lastActivity = now ∧
    (handleReload now method readResult st).1.lastActivity = now ∧
    (handleStatus now method st).1 = st := by
  refine ⟨rfl, ?_, ?_⟩
  · unfold handleReload
    split_ifs
    · rfl
    · cases readResult <;> rfl
  · unfold handleStatus
    split_ifs <;> rfl

/-! ### MAC normalization is case- and separator-insensitive -/

/-- The characters of a canonical MAC string: lower-case hex digits and
the colon. -/
def hexLowerColon : Str := "0123456789abcdef:".toList

theorem toLower_of_mem_hex {c : Char} (h : c ∈ hexLowerColon) :
    Char.toLower c = c :=
  (by decide : ∀ x ∈ hexLowerColon, Char.toLower x = x) c h

theorem norm_upper_of_mem_hex {c : Char} (h : c ∈ hexLowerColon) :
    Char.toLower (if Char.toUpper c = '-' then ':' else Char.toUpper c) = c :=
  (by decide : ∀ x ∈ hexLowerColon,
    Char.toLower (if Char.toUpper x = '-' then ':' else Char.toUpper x) = x) c h

theorem norm_hyphen_of_mem_hex {c : Char} (h : c ∈ hexLowerColon) :
    Char.toLower
      (if (if c = ':' then '-' else c) = '-' then ':'
       else if c = ':' then '-' else c) = c :=
  (by decide : ∀ x ∈ hexLowerColon,
    Char.toLower
      (if (if x = ':' then '-' else x) = '-' then ':'
       else if x = ':' then '-' else x) = x) c h

/-- Upper-casing a canonical MAC and then normalizing recovers it. -/
theorem normalizeMac_strToUpper {m : Str} (hm : ∀ c ∈ m, c ∈ hexLowerColon) :
    normalizeMac (strToUpper m) = m := by
  simp only [normalizeMac, strToUpper, replaceDashColon, strToLower, List.map_map]
  have hf : ∀ c ∈ m,
      (Char.toLower ∘ (fun c => if c = '-' then ':' else c) ∘ Char.toUpper) c = id c := by
    intro c hc
    simp only [Function.comp_apply, id_eq]
    exact norm_upper_of_mem_hex (hm c hc)
  rw [List.map_congr_left hf, List.map_id]

/-- Turning the colons of a canonical MAC into hyphens and then
normalizing recovers it. -/
theorem normalizeMac_hyphenize {m : Str} (hm : ∀ c ∈ m, c ∈ hexLowerColon) :
    normalizeMac (m.map fun c => if c = ':' then '-' else c) = m := by
  simp only [normalizeMac, replaceDashColon, strToLower, List.map_map]
  have hf : ∀ c ∈ m,
      (Char.toLower ∘ (fun c => if c = '-' then ':' else c) ∘
        fun c => if c = ':' then '-' else c) c = id c := by
    intro c hc
    simp only [Function.comp_apply, id_eq]
    exact norm_hyphen_of_mem_hex (hm c hc)
  rw [List.map_congr_left hf, List.map_id]

/-- C3: for every inventory snapshot, the upper-case colon form and the
lower-case hyphen form of one canonical MAC normalize to the same string
and therefore resolve to the same record (or both to none). -/
theorem findInstanceByMAC_case_separator_insensitive
    (instances : List LXDInstance) (m : Str)
    (hm : ∀ c ∈ m, c ∈ hexLowerColon) :
    normalizeMac (strToUpper m) =
      normalizeMac (m.map fun c => if c = ':' then '-' else c) ∧
    findInstanceByMAC (normalizeMac (strToUpper m)) instances =
      findInstanceByMAC
        (normalizeMac (m.map fun c => if c = ':' then '-' else c)) instances := by
  rw [normalizeMac_strToUpper hm, normalizeMac_hyphenize hm]
  exact ⟨rfl, rfl⟩

/-- The inventory record of the spec's matching scenario; the stored
MAC value is upper-case to exercise the case-insensitive comparison. -/
def team1Inst : LXDInstance :=
  ⟨"team1-win10".toList,
    [("volatile.eth-0.hwaddr".toList, "00:16:3E:4F:E5:74".toList)]⟩

/-- Witness for C3 at the spec's MAC: `00:16:3E:4F:E5:74` (upper, colon)
and `00-16-3e-4f-e5-74` (lower, hyphen) resolve to the same record, and
that record is the scenario record. -/
theorem findInstanceByMAC_insensitive_witness :
    (normalizeMac (strToUpper "00:16:3e:4f:e5:74".toList) =
        normalizeMac ("00:16:3e:4f:e5:74".toList.map fun c =>
          if c = ':' then '-' else c) ∧
      findInstanceByMAC (normalizeMac (strToUpper "00:16:3e:4f:e5:74".toList))
          [team1Inst] =
        findInstanceByMAC
          (normalizeMac ("00:16:3e:4f:e5:74".toList.map fun c =>
            if c = ':' then '-' else c)) [team1Inst]) ∧
    findInstanceByMAC (normalizeMac (strToUpper "00:16:3e:4f:e5:74".toList))
        [team1Inst] = some team1Inst :=
  ⟨findInstanceByMAC_case_separator_insensitive [team1Inst]
      "00:16:3e:4f:e5:74".toList (by decide),
    by decide⟩

/-! ### OpenWrt interface-name mapping -/

/-- Fuel-indexed core of Go `strings.ReplaceAll(s, pat, "")` for a
non-empty pattern: scan left to right, removing each non-overlapping
occurrence and resuming after it.  Each step consumes at least one
character, so fuel `s.length` never runs out; the fuel-zero branch is
unreachable then. -/
def removeAllAux (pat : Str) : Nat → Str → Str
  | _, [] => []
  | 0, s => s
  | fuel + 1, c :: rest =>
    if pat.isPrefixOf (c :: rest) ∧ pat ≠ [] then
      removeAllAux pat fuel (rest.drop (pat.length - 1))
    else
      c :: removeAllAux pat fuel rest

/-- Go `strings.ReplaceAll(s, pat, "")` for the non-empty patterns this
code base uses. -/
def removeAll (pat s : Str) : Str := removeAllAux pat s.length s

/-- `InterfaceMapping` (`internal/client/openwrt/network.go` lines
13–22). -/
def interfaceMapping : List (Str × Str) :=
  [("eth0".toList, "wan".toList), ("eth-0".toList, "wan".toList),
   ("eth1".toList, "lan".toList), ("eth-1".toList, "lan".toList),
   ("eth2".toList, "lan2".toList), ("eth-2".toList, "lan2".toList),
   ("eth3".toList, "lan3".toList), ("eth-3".toList, "lan3".toList)]

/-- `MapInterfaceName` (`internal/client/openwrt/network.go` lines
25–40): exact table lookup first; otherwise lower-case the name, remove
every occurrence of `eth-` and then of `eth`, and dispatch on the
remainder. -/
def mapInterfaceName (cloudInitName : Str) : Str :=
  match interfaceMapping.find? (fun kv => decide (kv.1 = cloudInitName)) with
  | some kv => kv.2
  | none =>
    let s := removeAll "eth".toList (removeAll "eth-".toList (strToLower cloudInitName))
    if s = "0".toList then "wan".toList
    else if s = "1".toList then "lan".toList
    else "lan".toList ++ s

/-- The fallback rule exactly as the claim words it, for comparison with
the source function: the table first, otherwise strip an `eth-` or `eth`
prefix and dispatch on the remaining suffix. -/
def claimedMapInterfaceName (n : Str) : Str :=
  match interfaceMapping.find? (fun kv => decide (kv.1 = n)) with
  | some kv => kv.2
  | none =>
    let s :=
      if "eth-".toList.isPrefixOf n then n.drop 4
      else if "eth".toList.isPrefixOf n then n.drop 3
      else n
    if s = "0".toList then "wan".toList
    else if s = "1".toList then "lan".toList
    else "lan".toList ++ s

/-- C8 counterexample: on `fooeth0`, which is not in the table and does
not start with `eth`, the code removes the inner `eth` occurrence and
answers `lanfoo0`, while the claim's stripping of an `eth`/`eth-` prefix
would leave the name intact and answer `lanfooeth0`. -/
theorem mapInterfaceName_counterexample :
    mapInterfaceName "fooeth0".toList = "lanfoo0".toList ∧
    claimedMapInterfaceName "fooeth0".toList = "lanfooeth0".toList ∧
    mapInterfaceName "fooeth0".toList ≠ claimedMapInterfaceName "fooeth0".toList := by
  decide

/-- C8 amended: the table maps `eth0`/`eth-0`→`wan`, `eth1`/`eth-1`→`lan`,
`eth2`/`eth-2`→`lan2`, `eth3`/`eth-3`→`lan3`; a name not in the table is
lower-cased and every occurrence of `eth-` and then of `eth` is removed,
and the remainder dispatches 0→`wan`, 1→`lan`, else `lan<remainder>`; in
particular `eth2` maps to `lan2` and `eth5` to `lan5`. -/
theorem mapInterfaceName_spec :
    (∀ p ∈ interfaceMapping, mapInterfaceName p.1 = p.2) ∧
    (∀ n, interfaceMapping.find? (fun kv => decide (kv.1 = n)) = none →
      mapInterfaceName n =
        (let s := removeAll "eth".toList (removeAll "eth-".toList (strToLower n))
         if s = "0".toList then "wan".toList
         else if s = "1".toList then "lan".toList
         else "lan".toList ++ s)) ∧
    mapInterfaceName "eth2".toList = "lan2".toList ∧
    mapInterfaceName "eth5".toList = "lan5".toList := by
  refine ⟨by decide, ?_, by decide, by decide⟩
  intro n h
  simp only [mapInterfaceName, h]

/-- Witness for the amended C8 at the unlisted name `eth5`: the fallback
computation applies and yields `lan5`. -/
theorem mapInterfaceName_spec_witness :
    mapInterfaceName "eth5".toList =
      (let s := removeAll "eth".toList
          (removeAll "eth-".toList (strToLower "eth5".toList))
       if s = "0".toList then "wan".toList
       else if s = "1".toList then "lan".toList
       else "lan".toList ++ s) :=
  mapInterfaceName_spec.2.1 "eth5".toList (by decide)

/-! ### Client-side MAC discovery -/

/-- The digit alphabet of Go `net.HardwareAddr.String` (its `hexDigit`
constant). -/
def hexDigits : Str := "0123456789abcdef".toList

/-- One hex digit; all inputs produced by `byteHex` are below 16. -/
def hexDigit (n : Nat) : Char := hexDigits.getD n '0'

/-- Two lower-case hex digits of one byte, as `HardwareAddr.String`
writes them (`b >> 4` and `b & 0xF`). -/
def byteHex (b : Nat) : Str := [hexDigit (b / 16 % 16), hexDigit (b % 16)]

/-- Go `net.HardwareAddr.String`: hex byte pairs joined by colons. -/
def hwAddrString : List Nat → Str
  | [] => []
  | [b] => byteHex b
  | b :: rest => byteHex b ++ ':' :: hwAddrString rest

/-- The slice of a Go `net.Interface` that `mac.go` inspects. -/
structure NetInterface where
  loopback : Bool
  up : Bool
  hwaddr : List Nat
deriving DecidableEq, Repr

/-- `GetMACByName` (`internal/client/mac.go` lines 43–54): an interface
with no hardware address is an error, otherwise the lower-cased
`HardwareAddr.String()`.  Interface lookup itself is external; the
argument is the found interface's hardware address. -/
def getMACByName (hw : List Nat) : Except Str Str :=
  if hw.length = 0 then Except.error "interface has no MAC address".toList
  else Except.ok (strToLower (hwAddrString hw))

/-- `GetPrimaryMAC` (`internal/client/mac.go` lines 10–40): the first
interface that is not loopback, has a hardware address, is up, and
renders to a non-empty MAC string, lower-cased; otherwise an error. -/
def getPrimaryMAC (ifaces : List NetInterface) : Except Str Str :=
  match ifaces.find? (fun i =>
      !i.loopback && decide (i.hwaddr ≠ []) && i.up &&
        decide (hwAddrString i.hwaddr ≠ [])) with
  | some i => Except.ok (strToLower (hwAddrString i.hwaddr))
  | none => Except.error "no valid network interface found".toList

theorem hexDigit_mem (n : Nat) : hexDigit n ∈ hexLowerColon := by
  unfold hexDigit
  by_cases h : n < 16
  · have hlen : n < hexDigits.length := h
    rw [List.getD_eq_getElem?_getD, List.getElem?_eq_getElem hlen]
    have hmem : hexDigits[n] ∈ hexDigits := List.getElem_mem hlen
    have hsub : ∀ c ∈ hexDigits, c ∈ hexLowerColon := by decide
    exact hsub _ hmem
  · rw [List.getD_eq_getElem?_getD, List.getElem?_eq_none (by simpa using h)]
    decide

theorem mem_byteHex (b : Nat) : ∀ c ∈ byteHex b, c ∈ hexLowerColon := by
  intro c hc
  rcases hc with _ | ⟨_, hc⟩
  · exact hexDigit_mem _
  · rcases hc with _ | ⟨_, hc⟩
    · exact hexDigit_mem _
    · cases hc

theorem mem_hwAddrString (bytes : List Nat) :
    ∀ c ∈ hwAddrString bytes, c ∈ hexLowerColon := by
  induction bytes with
  | nil => intro c hc; cases hc
  | cons b rest ih =>
    cases rest with
    | nil => exact mem_byteHex b
    | cons b2 rest2 =>
      intro c hc
      rw [show hwAddrString (b :: b2 :: rest2) =
            byteHex b ++ ':' :: hwAddrString (b2 :: rest2) from rfl,
          List.mem_append] at hc
      rcases hc with hc | hc
      · exact mem_byteHex b c hc
      · rcases hc with _ | ⟨_, hc⟩
        · decide
        · exact ih c hc

theorem strToLower_fixed_of_mem {s : Str} (h : ∀ c ∈ s, c ∈ hexLowerColon) :
    strToLower s = s := by
  unfold strToLower
  have hf : ∀ c ∈ s, Char.toLower c = id c := fun c hc => by
    simpa using toLower_of_mem_hex (h c hc)
  rw [List.map_congr_left hf, List.map_id]

theorem normalizeMac_fixed_of_mem {s : Str} (h : ∀ c ∈ s, c ∈ hexLowerColon) :
    normalizeMac s = s := by
  simp only [normalizeMac, replaceDashColon, strToLower, List.map_map]
  have hf : ∀ c ∈ s, (Char.toLower ∘ fun c => if c = '-' then ':' else c) c = id c := by
    intro c hc
    simp only [Function.comp_apply, id_eq]
    exact (by decide : ∀ x ∈ hexLowerColon,
      Char.toLower (if x = '-' then ':' else x) = x) c (h c hc)
  rw [List.map_congr_left hf, List.map_id]

/-- C10: every MAC the client discovers — by interface name or by the
primary-interface scan — is already in lower-case colon form: it is a
fixed point of the server's normalization, so no client request relies on
the hyphen conversion or the lower-casing. -/
theorem client_mac_normalized (hw : List Nat) (ifaces : List NetInterface) :
    (∀ mac, getMACByName hw = Except.ok mac → normalizeMac mac = mac) ∧
    (∀ mac, getPrimaryMAC ifaces = Except.ok mac → normalizeMac mac = mac) := by
  constructor
  · intro mac hok
    unfold getMACByName at hok
    by_cases hz : hw.length = 0
    · rw [if_pos hz] at hok
      cases hok
    · rw [if_neg hz] at hok
      injection hok with h
      subst h
      rw [strToLower_fixed_of_mem (mem_hwAddrString hw)]
      exact normalizeMac_fixed_of_mem (mem_hwAddrString hw)
  · intro mac hok
    unfold getPrimaryMAC at hok
    cases hfind : ifaces.find? (fun i =>
        !i.loopback && decide (i.hwaddr ≠ []) && i.up &&
          decide (hwAddrString i.hwaddr ≠ [])) with
    | none => rw [hfind] at hok; cases hok
    | some i =>
      rw [hfind] at hok
      injection hok with h
      subst h
      rw [strToLower_fixed_of_mem (mem_hwAddrString i.hwaddr)]
      exact normalizeMac_fixed_of_mem (mem_hwAddrString i.hwaddr)

/-- Witness for C10 on the scenario hardware address
`00:16:3e:4f:e5:74` (bytes 0, 22, 62, 79, 229, 116): the discovered
string is its own normalization. -/
theorem client_mac_normalized_witness :
    normalizeMac "00:16:3e:4f:e5:74".toList = "00:16:3e:4f:e5:74".toList :=
  (client_mac_normalized [0, 22, 62, 79, 229, 116] []).1
    "00:16:3e:4f:e5:74".toList (by rfl)

/-! ### Delivery client: bounded-retry configuration fetch -/

/-- The observable outcome of the retry loop: the returned value, how
many attempts ran, and how many inter-attempt sleeps happened. -/
structure RetryTrace where
  result : Except Str ConfigResponse
  attempts : Nat
  sleeps : Nat
deriving Repr

/-- Does an attempt outcome count as a failure? -/
def isErr : Except Str ConfigResponse → Bool
  | Except.error _ => true
  | Except.ok _ => false

/-- The loop body of `requestConfigWithRetry` (`cmd/client/*/main.go`):
iteration `i` sleeps the fixed delay when `i > 0`, performs the attempt,
returns on success, and otherwise keeps the error and recurses.  `fuel`
is the number of iterations left; at zero the wrapped last error is
returned. -/
def retryFrom (attempt : Nat → Except Str ConfigResponse) :
    Nat → Nat → Str → RetryTrace
  | _, 0, lastErr => ⟨Except.error lastErr, 0, 0⟩
  | i, fuel + 1, lastErr =>
    let s := if 0 < i then 1 else 0
    match attempt i with
    | Except.ok cfg => ⟨Except.ok cfg, 1, s⟩
    | Except.error e =>
      let r := retryFrom attempt (i + 1) fuel e
      ⟨r.result, r.attempts + 1, r.sleeps + s⟩

/-- `requestConfigWithRetry(serverURL, mac, maxRetries, retryDelay)`:
the loop runs from `i = 0` with budget `maxRetries`.  The HTTP attempt
is the oracle `attempt`. -/
def requestConfigWithRetry (attempt : Nat → Except Str ConfigResponse)
    (maxRetries : Nat) : RetryTrace :=
  retryFrom attempt 0 maxRetries []

/-- `requestConfig` (`cmd/client/*/main.go`): a transport-level failure
is an error; a response with a status other than 200 is an error; a JSON
decode failure is an error; otherwise the decoded configuration.  The
transport outcome is the argument: either a transport error or a status
code paired with the decode outcome. -/
def requestConfig (transport : Except Str (Nat × Except Str ConfigResponse)) :
    Except Str ConfigResponse :=
  match transport with
  | Except.error e => Except.error e
  | Except.ok (status, body) =>
    if status ≠ 200 then Except.error "server returned non-OK status".toList
    else
      match body with
      | Except.error e => Except.error e
      | Except.ok cfg => Except.ok cfg

/-- `main` calls `log.Fatalf` when the retry budget is exhausted, which
terminates the process with exit status 1; success continues with 0. -/
def clientExitCode (r : Except Str ConfigResponse) : Nat :=
  match r with
  | Except.error _ => 1
  | Except.ok _ => 0

theorem retryFrom_attempts_le (attempt : Nat → Except Str ConfigResponse)
    (fuel : Nat) : ∀ i le, (retryFrom attempt i fuel le).attempts ≤ fuel := by
  induction fuel with
  | zero => intro i le; exact Nat.le_refl 0
  | succ k ih =>
    intro i le
    simp only [retryFrom]
    cases hA : attempt i with
    | ok cfg => simpa using Nat.succ_le_succ (Nat.zero_le k)
    | error e =>
      simpa using Nat.succ_le_succ (ih (i + 1) e)

theorem retryFrom_sleeps (attempt : Nat → Except Str ConfigResponse)
    (fuel : Nat) : ∀ i le,
    (retryFrom attempt i fuel le).sleeps =
      (if 0 < i then (retryFrom attempt i fuel le).attempts
       else (retryFrom attempt i fuel le).attempts - 1) := by
  induction fuel with
  | zero =>
    intro i le
    simp only [retryFrom]
    split_ifs <;> rfl
  | succ k ih =>
    intro i le
    simp only [retryFrom]
    cases hA : attempt i with
    | ok cfg =>
      by_cases hi : 0 < i <;> simp [hi]
    | error e =>
      have hrec := ih (i + 1) e
      rw [if_pos (Nat.succ_pos i)] at hrec
      by_cases hi : 0 < i
      · simp only [hi, if_pos, ite_true, hrec]
      · simp only [hi, ite_false, hrec]
        omega

theorem retryFrom_first_success (attempt : Nat → Except Str ConfigResponse)
    (j : Nat) : ∀ i fuel le cfg, j < fuel → attempt (i + j) = Except.ok cfg →
    (∀ m, m < j → isErr (attempt (i + m)) = true) →
    (retryFrom attempt i fuel le).result = Except.ok cfg ∧
    (retryFrom attempt i fuel le).attempts = j + 1 := by
  induction j with
  | zero =>
    intro i fuel le cfg hlt hok _
    cases fuel with
    | zero => omega
    | succ k =>
      rw [Nat.add_zero] at hok
      simp [retryFrom, hok]
  | succ j ih =>
    intro i fuel le cfg hlt hok hprev
    cases fuel with
    | zero => omega
    | succ k =>
      have h0 : isErr (attempt (i + 0)) = true := hprev 0 (Nat.succ_pos j)
      rw [Nat.add_zero] at h0
      cases hA : attempt i with
      | ok c => rw [hA] at h0; cases h0
      | error e =>
        have hok' : attempt (i + 1 + j) = Except.ok cfg := by
          rw [show i + 1 + j = i + (j + 1) by omega]
          exact hok
        have hprev' : ∀ m, m < j → isErr (attempt (i + 1 + m)) = true := by
          intro m hm
          rw [show i + 1 + m = i + (m + 1) by omega]
          exact hprev (m + 1) (by omega)
        have hrec := ih (i + 1) k e cfg (by omega) hok' hprev'
        simp only [retryFrom, hA]
        exact ⟨hrec.1, by rw [hrec.2]⟩

theorem retryFrom_all_fail (attempt : Nat → Except Str ConfigResponse)
    (fuel : Nat) : ∀ i le, (∀ m, m < fuel → isErr (attempt (i + m)) = true) →
    isErr (retryFrom attempt i fuel le).result = true ∧
    (retryFrom attempt i fuel le).attempts = fuel := by
  induction fuel with
  | zero => intro i le _; exact ⟨rfl, rfl⟩
  | succ k ih =>
    intro i le hall
    have h0 : isErr (attempt (i + 0)) = true := hall 0 (Nat.succ_pos k)
    rw [Nat.add_zero] at h0
    cases hA : attempt i with
    | ok c => rw [hA] at h0; cases h0
    | error e =>
      have hall' : ∀ m, m < k → isErr (attempt (i + 1 + m)) = true := by
        intro m hm
        rw [show i + 1 + m = i + (m + 1) by omega]
        exact hall (m + 1) (by omega)
      have hrec := ih (i + 1) e hall'
      simp only [retryFrom, hA]
      exact ⟨hrec.1, by rw [hrec.2]⟩

/-- C7: the fetch loop makes at most `maxRetries` attempts with one
fixed-delay sleep between consecutive attempts, returns the configuration
of the first successful attempt and stops there, treats any transport
error or non-2xx status as a retryable failure, and when every attempt in
the budget fails it returns an error and the client exits with status
1. -/
theorem requestConfigWithRetry_spec (attempt : Nat → Except Str ConfigResponse)
    (maxRetries : Nat) :
    (requestConfigWithRetry attempt maxRetries).attempts ≤ maxRetries ∧
    (requestConfigWithRetry attempt maxRetries).sleeps =
      (requestConfigWithRetry attempt maxRetries).attempts - 1 ∧
    (∀ j cfg, j < maxRetries → attempt j = Except.ok cfg →
      (∀ m, m < j → isErr (attempt m) = true) →
      (requestConfigWithRetry attempt maxRetries).result = Except.ok cfg ∧
      (requestConfigWithRetry attempt maxRetries).attempts = j + 1) ∧
    ((∀ m, m < maxRetries → isErr (attempt m) = true) →
      isErr (requestConfigWithRetry attempt maxRetries).result = true ∧
      (requestConfigWithRetry attempt maxRetries).attempts = maxRetries ∧
      clientExitCode (requestConfigWithRetry attempt maxRetries).result = 1) ∧
    (∀ e, requestConfig (Except.error e) = Except.error e) ∧
    (∀ status body, ¬(200 ≤ status ∧ status < 300) →
      isErr (requestConfig (Except.ok (status, body))) = true) := by
  refine ⟨retryFrom_attempts_le attempt maxRetries 0 [], ?_, ?_, ?_, fun e => rfl, ?_⟩
  · have := retryFrom_sleeps attempt maxRetries 0 []
    simpa [requestConfigWithRetry] using this
  · intro j cfg hlt hok hprev
    have := retryFrom_first_success attempt j 0 maxRetries [] cfg hlt
      (by simpa using hok) (fun m hm => by simpa using hprev m hm)
    exact this
  · intro hall
    have hT : isErr (requestConfigWithRetry attempt maxRetries).result = true ∧
        (requestConfigWithRetry attempt maxRetries).attempts = maxRetries :=
      retryFrom_all_fail attempt maxRetries 0 []
        (fun m hm => by simpa using hall m hm)
    refine ⟨hT.1, hT.2, ?_⟩
    rcases hr : (requestConfigWithRetry attempt maxRetries).result with e | c
    · rfl
    · rw [hr] at hT
      cases hT.1
  · intro status body hs
    have hne : status ≠ 200 := by omega
    simp [requestConfig, hne, isErr]

/-- A concrete attempt sequence for the witness: failures at indices 0
and 1, success at index 2. -/
def attemptSucceedsAtTwo : Nat → Except Str ConfigResponse :=
  fun j =>
    if j = 2 then Except.ok ⟨"host".toList, defaultNetworkConfig, []⟩
    else Except.error "connection refused".toList

/-- Witness for C7: with budget 10 the loop stops at the first success
(index 2, so three attempts), and with an always-failing attempt and
budget 3 it exhausts the budget and the client exit status is 1. -/
theorem requestConfigWithRetry_spec_witness :
    ((requestConfigWithRetry attemptSucceedsAtTwo 10).result =
        Except.ok ⟨"host".toList, defaultNetworkConfig, []⟩ ∧
      (requestConfigWithRetry attemptSucceedsAtTwo 10).attempts = 2 + 1) ∧
    (isErr (requestConfigWithRetry
        (fun _ => Except.error "down".toList) 3).result = true ∧
      (requestConfigWithRetry (fun _ => Except.error "down".toList) 3).attempts = 3 ∧
      clientExitCode (requestConfigWithRetry
        (fun _ => Except.error "down".toList) 3).result = 1) :=
  ⟨(requestConfigWithRetry_spec attemptSucceedsAtTwo 10).2.2.1 2
      ⟨"host".toList, defaultNetworkConfig, []⟩ (by omega) (by rfl)
      (by decide),
    (requestConfigWithRetry_spec (fun _ => Except.error "down".toList) 3).2.2.2.1
      (fun m _ => rfl)⟩

/-! ### CIDR parsing (Go `net.ParseCIDR`, IPv4) -/

/-- Split a string at the first occurrence of a separator, as
`strings.Index` does in `net.ParseCIDR`; `none` when absent. -/
def splitFirst (sep : Char) : Str → Option (Str × Str)
  | [] => none
  | c :: rest =>
    if c = sep then some ([], rest)
    else
      match splitFirst sep rest with
      | none => none
      | some (a, b) => some (c :: a, b)

/-- Decimal value of a digit string. -/
def digitsVal (s : Str) : Nat :=
  s.foldl (fun a c => a * 10 + (c.toNat - 48)) 0

/-- One IPv4 field: non-empty, digits only, no leading zero, at most
255 — the accept/reject behavior of Go's `ParseIP` v4 field parse. -/
def parseOctet (f : Str) : Option Nat :=
  if f = [] then none
  else if !(f.all Char.isDigit) then none
  else if 2 ≤ f.length ∧ f.headD '0' = '0' then none
  else if digitsVal f ≤ 255 then some (digitsVal f) else none

/-- Dotted-quad IPv4 parse: exactly four valid fields. -/
def parseIPv4 (s : Str) : Option (Nat × Nat × Nat × Nat) :=
  match s.splitOn '.' with
  | [a, b, c, d] =>
    match parseOctet a, parseOctet b, parseOctet c, parseOctet d with
    | some x, some y, some z, some w => some (x, y, z, w)
    | _, _, _, _ => none
  | _ => none

/-- The CIDR mask: digits only (leading zeros allowed, as Go's `dtoi`
accepts them here), at most 32 for IPv4. -/
def parsePrefixLen (s : Str) : Option Nat :=
  if s = [] then none
  else if !(s.all Char.isDigit) then none
  else if digitsVal s ≤ 32 then some (digitsVal s) else none

/-- Go `net.ParseCIDR` restricted to IPv4, the only address family this
system supports: `none` is Go's non-nil error. -/
def parseCIDR (s : Str) : Option ((Nat × Nat × Nat × Nat) × Nat) :=
  match splitFirst '/' s with
  | none => none
  | some (addr, mask) =>
    match parseIPv4 addr, parsePrefixLen mask with
    | some ip, some n => some (ip, n)
    | _, _ => none

/-- Decimal rendering of a natural number. -/
def natToStr (n : Nat) : Str := Nat.toDigits 10 n

/-- Dotted-quad rendering (`net.IP.String` on a 4-byte address). -/
def ipString (ip : Nat × Nat × Nat × Nat) : Str :=
  natToStr ip.1 ++ ['.'] ++ natToStr ip.2.1 ++ ['.'] ++
  natToStr ip.2.2.1 ++ ['.'] ++ natToStr ip.2.2.2

/-- The four octets of a CIDR mask of the given length
(`net.CIDRMask`). -/
def maskOctets (p : Nat) : Nat × Nat × Nat × Nat :=
  let m := 2 ^ 32 - 2 ^ (32 - p)
  (m / 2 ^ 24 % 256, m / 2 ^ 16 % 256, m / 2 ^ 8 % 256, m % 256)

/-- The dotted-decimal mask string the appliers write. -/
def maskString (p : Nat) : Str := ipString (maskOctets p)

/-- Did a fallible step fail? -/
def exceptFailed {α : Type} : Except Str α → Bool
  | Except.error _ => true
  | Except.ok _ => false

/-! ### Backend appliers -/

/-- The fixed head of the generated Netplan document
(`configureNetplanAll`, `internal/client/linux/network.go` line 260). -/
def netplanHeader : Str :=
  "# Generated by Cyber Range Configuration Client\nnetwork:\n  version: 2\n  ethernets:\n".toList

/-- The per-route lines of the Netplan document. -/
def netplanRouteLines (rs : List Route) : Str :=
  rs.foldl (fun acc r =>
    acc ++ "        - to: ".toList ++ r.dest ++
      "\n          via: ".toList ++ r.via ++ "\n".toList) []

/-- One interface block of the Netplan document (`configureNetplanAll`
loop body, lines 266–309).  A static interface with a non-empty address
that `net.ParseCIDR` rejects aborts the whole build with an error —
before anything is written; a static interface with an empty address
simply gets no `addresses:` section. -/
def netplanInterfaceBlock (ifaceName : Str) (cfg : NetworkConfig) :
    Except Str Str :=
  let head := "    ".toList ++ ifaceName ++ ":\n".toList
  if cfg.dhcp then
    Except.ok (head ++ "      dhcp4: true\n".toList ++
      (if cfg.routes ≠ [] then
        "      routes:\n".toList ++ netplanRouteLines cfg.routes
      else []))
  else
    let routesPart :=
      if cfg.gateway ≠ [] ∨ cfg.routes ≠ [] then
        "      routes:\n".toList ++
        (if cfg.gateway ≠ [] then
          "        - to: default\n          via: ".toList ++ cfg.gateway ++ "\n".toList
        else []) ++
        netplanRouteLines cfg.routes
      else []
    let dnsPart :=
      if cfg.dns ≠ [] then
        "      nameservers:\n        addresses:\n".toList ++
          cfg.dns.foldl (fun acc d => acc ++ "          - ".toList ++ d ++ "\n".toList) []
      else []
    let base := head ++ "      dhcp4: false\n".toList
    if cfg.address = [] then
      Except.ok (base ++ routesPart ++ dnsPart)
    else
      match parseCIDR cfg.address with
      | none => Except.error ("invalid address format for ".toList ++ ifaceName)
      | some _ =>
        Except.ok (base ++ "      addresses:\n        - ".toList ++ cfg.address ++
          "\n".toList ++ routesPart ++ dnsPart)

/-- The whole-document accumulation loop shared by the Netplan and
ifupdown appliers: append each interface's block, or return the first
block error before any file is produced. -/
def buildDoc (block : Str → NetworkConfig → Except Str Str) (acc : Str) :
    List (Str × NetworkConfig) → Except Str Str
  | [] => Except.ok acc
  | p :: rest =>
    match block p.1 p.2 with
    | Except.error e => Except.error e
    | Except.ok b => buildDoc block (acc ++ b) rest

/-- `configureNetplanAll` (lines 259–325): one declarative document for
every interface; on success the document is written to a single file and
applied, on error nothing is written. -/
def configureNetplanAll (networks : List (Str × NetworkConfig)) : Except Str Str :=
  buildDoc netplanInterfaceBlock netplanHeader networks

/-- The `post-up`/`pre-down` route hook lines of an ifupdown stanza. -/
def ifupdownRouteLines (rs : List Route) : Str :=
  rs.foldl (fun acc r =>
    acc ++ "    post-up ip route add ".toList ++ r.dest ++ " via ".toList ++
      r.via ++ "\n".toList ++
    "    pre-down ip route del ".toList ++ r.dest ++ " via ".toList ++
      r.via ++ "\n".toList) []

/-- One stanza of `configureIfupdownAll` (lines 345–376): DHCP stanzas
carry no address; static stanzas parse the CIDR — an invalid (including
empty) address aborts the whole build. -/
def ifupdownStanza (ifaceName : Str) (cfg : NetworkConfig) : Except Str Str :=
  if cfg.dhcp then
    Except.ok ("\nauto ".toList ++ ifaceName ++ "\niface ".toList ++ ifaceName ++
      " inet dhcp\n".toList ++ ifupdownRouteLines cfg.routes)
  else
    match parseCIDR cfg.address with
    | none => Except.error ("invalid address format for ".toList ++ ifaceName)
    | some (ip, p) =>
      Except.ok ("\nauto ".toList ++ ifaceName ++ "\niface ".toList ++ ifaceName ++
        " inet static\n".toList ++
        "    address ".toList ++ ipString ip ++ "\n".toList ++
        "    netmask ".toList ++ maskString p ++ "\n".toList ++
        (if cfg.gateway ≠ [] then
          "    gateway ".toList ++ cfg.gateway ++ "\n".toList
        else []) ++
        (if cfg.dns ≠ [] then
          "    dns-nameservers ".toList ++ List.intercalate " ".toList cfg.dns ++
            "\n".toList
        else []) ++
        ifupdownRouteLines cfg.routes)

/-- `configureIfupdownAll` (lines 342–401): a single interfaces file
covering every stanza; an invalid address aborts before the file is
written. -/
def configureIfupdownAll (networks : List (Str × NetworkConfig)) : Except Str Str :=
  buildDoc ifupdownStanza "# Generated by Cyber Range Configuration Client\n".toList
    networks

/-- `configureNetworkManagerAll` (lines 170–177): the per-interface
`nmcli` work is external, so it is the oracle `configure`; the loop
returns the wrapped error of the first failing interface without visiting
the rest.  The second component lists the interfaces actually visited. -/
def configureNetworkManagerAll (configure : Str → NetworkConfig → Except Str Unit) :
    List (Str × NetworkConfig) → Except Str Unit × List Str
  | [] => (Except.ok (), [])
  | (n, c) :: rest =>
    match configure n c with
    | Except.error e =>
      (Except.error ("failed to configure ".toList ++ n ++ ": ".toList ++ e), [n])
    | Except.ok _ =>
      let r := configureNetworkManagerAll configure rest
      (r.1, n :: r.2)

/-- The per-interface loop of the OpenWrt client
(`cmd/client/openwrt/main.go` lines 87–100): every interface is mapped
and attempted; a failure is logged and the loop continues.  The trace
records each visited UCI name with its outcome. -/
def openwrtApplyAll (configure : Str → NetworkConfig → Except Str Unit)
    (networks : List (Str × NetworkConfig)) : List (Str × Bool) :=
  networks.map fun p =>
    match configure (mapInterfaceName p.1) p.2 with
    | Except.ok _ => (mapInterfaceName p.1, true)
    | Except.error _ => (mapInterfaceName p.1, false)

/-- `configureInterfaceStatic` (`internal/client/openwrt/network.go`
lines 82–129): parse the CIDR first — failure aborts before any `uci`
command — then stage the `uci` command batch, returned here as the list
of command lines the function would run. -/
def configureInterfaceStatic (uciInterface : Str) (cfg : NetworkConfig) :
    Except Str (List (List Str)) :=
  match parseCIDR cfg.address with
  | none => Except.error "invalid address format".toList
  | some (ip, p) =>
    let pfx := "network.".toList ++ uciInterface
    let base := [["uci".toList, "set".toList, pfx ++ ".proto=static".toList],
                 ["uci".toList, "set".toList, pfx ++ ".ipaddr=".toList ++ ipString ip],
                 ["uci".toList, "set".toList, pfx ++ ".netmask=".toList ++ maskString p]]
    let gw :=
      if cfg.gateway ≠ [] then
        [["uci".toList, "set".toList, pfx ++ ".gateway=".toList ++ cfg.gateway]]
      else []
    let dnsCmds :=
      if cfg.dns ≠ [] then
        ["uci".toList, "delete".toList, pfx ++ ".dns".toList] ::
          cfg.dns.map (fun d => ["uci".toList, "add_list".toList,
            pfx ++ ".dns=".toList ++ d])
      else []
    Except.ok (base ++ gw ++ dnsCmds)

/-- `configureStatic` of the Windows netsh applier (`part_003` lines
44–81): parse the CIDR first — failure aborts before any `netsh` call —
then one static-address call (carrying the gateway), one primary-DNS
call, and indexed add calls for the remaining DNS servers. -/
def windowsConfigureStatic (adapterName : Str) (cfg : NetworkConfig) :
    Except Str (List (List Str)) :=
  match parseCIDR cfg.address with
  | none => Except.error "invalid address format".toList
  | some (ip, p) =>
    let setIP := ["netsh".toList, "interface".toList, "ip".toList, "set".toList,
      "address".toList, adapterName, "static".toList, ipString ip, maskString p,
      cfg.gateway]
    let dnsCmds :=
      match cfg.dns with
      | [] => []
      | d0 :: rest =>
        (["netsh".toList, "interface".toList, "ip".toList, "set".toList,
            "dns".toList, adapterName, "static".toList, d0]) ::
          rest.enum.map (fun q => ["netsh".toList, "interface".toList, "ip".toList,
            "add".toList, "dns".toList, adapterName, q.2,
            "index=".toList ++ natToStr (q.1 + 2)])
    Except.ok (setIP :: dnsCmds)

theorem buildDoc_error_of_mem (block : Str → NetworkConfig → Except Str Str)
    (networks : List (Str × NetworkConfig)) :
    ∀ acc n cfg, (n, cfg) ∈ networks → exceptFailed (block n cfg) = true →
    exceptFailed (buildDoc block acc networks) = true := by
  induction networks with
  | nil => intro acc n cfg hmem _; cases hmem
  | cons p rest ih =>
    intro acc n cfg hmem hblk
    rcases List.mem_cons.mp hmem with heq | htail
    · subst heq
      cases hB : block n cfg with
      | error e => simp only [buildDoc, hB]; rfl
      | ok b => rw [hB] at hblk; cases hblk
    · cases hB : block p.1 p.2 with
      | error e => simp only [buildDoc, hB]; rfl
      | ok b =>
        simp only [buildDoc, hB]
        exact ih (acc ++ b) n cfg htail hblk

/-- An oracle that fails on `eth0` and succeeds elsewhere, standing for a
single failing `nmcli` invocation. -/
def failEth0 : Str → NetworkConfig → Except Str Unit :=
  fun n _ =>
    if n = "eth0".toList then Except.error "nmcli modify failed".toList
    else Except.ok ()

/-- C4 counterexample: handed the two-interface batch `eth0, eth1` with
`eth0` failing, the NetworkManager applier returns the wrapped error
after visiting only `eth0` — it aborts the batch instead of continuing
to `eth1`, although it is not the Netplan whole-document applier. -/
theorem configureNetworkManagerAll_aborts :
    (configureNetworkManagerAll failEth0
        [("eth0".toList, defaultNetworkConfig),
         ("eth1".toList, defaultNetworkConfig)]).2 = ["eth0".toList] ∧
    "eth1".toList ∉ (configureNetworkManagerAll failEth0
        [("eth0".toList, defaultNetworkConfig),
         ("eth1".toList, defaultNetworkConfig)]).2 ∧
    exceptFailed (configureNetworkManagerAll failEth0
        [("eth0".toList, defaultNetworkConfig),
         ("eth1".toList, defaultNetworkConfig)]).1 = true := by
  decide

/-- C4 amended: only the OpenWrt client's loop logs a per-interface
failure and continues — it visits every interface of the batch; the
NetworkManager applier stops at the first failing interface and returns
its wrapped error; and the Netplan and ifupdown whole-document builders
abort on a static interface whose address `ParseCIDR` rejects, before
any file is produced (Netplan skips the check for an empty address). -/
theorem applier_batch_failure_semantics :
    (∀ (configure : Str → NetworkConfig → Except Str Unit) n c rest e,
      configure n c = Except.error e →
      configureNetworkManagerAll configure ((n, c) :: rest) =
        (Except.error ("failed to configure ".toList ++ n ++ ": ".toList ++ e),
          [n])) ∧
    (∀ (configure : Str → NetworkConfig → Except Str Unit) networks,
      (openwrtApplyAll configure networks).map Prod.fst =
        networks.map (fun p => mapInterfaceName p.1)) ∧
    (∀ networks n cfg, (n, cfg) ∈ networks → cfg.dhcp = false →
      cfg.address ≠ [] → parseCIDR cfg.address = none →
      exceptFailed (configureNetplanAll networks) = true) ∧
    (∀ networks n cfg, (n, cfg) ∈ networks → cfg.dhcp = false →
      parseCIDR cfg.address = none →
      exceptFailed (configureIfupdownAll networks) = true) := by
  refine ⟨?_, ?_, ?_, ?_⟩
  · intro configure n c rest e h
    simp [configureNetworkManagerAll, h]
  · intro configure networks
    simp only [openwrtApplyAll, List.map_map]
    refine List.map_congr_left ?_
    intro p _
    simp only [Function.comp_apply]
    cases h : configure (mapInterfaceName p.1) p.2 <;> simp [h]
  · intro networks n cfg hmem hdhcp haddr hparse
    refine buildDoc_error_of_mem _ networks netplanHeader n cfg hmem ?_
    simp only [netplanInterfaceBlock, hdhcp, if_neg haddr, hparse]
    rfl
  · intro networks n cfg hmem hdhcp hparse
    refine buildDoc_error_of_mem _ networks _ n cfg hmem ?_
    simp only [ifupdownStanza, hdhcp, hparse]
    rfl

/-- A static configuration whose address field cannot parse. -/
def badAddressCfg : NetworkConfig :=
  ⟨false, "300.300.300.300/99".toList, [], [], []⟩

/-- Witness for the amended C4: the NetworkManager batch aborts on the
concrete failing `eth0`; the OpenWrt loop visits both interfaces of a
batch whose first member fails; and a Netplan batch with one unparsable
address fails as a whole. -/
theorem applier_batch_failure_semantics_witness :
    (configureNetworkManagerAll failEth0
        [("eth0".toList, defaultNetworkConfig),
         ("eth1".toList, defaultNetworkConfig)] =
      (Except.error ("failed to configure ".toList ++ "eth0".toList ++
          ": ".toList ++ "nmcli modify failed".toList), ["eth0".toList])) ∧
    ((openwrtApplyAll failEth0
        [("eth0".toList, defaultNetworkConfig),
         ("eth1".toList, defaultNetworkConfig)]).map Prod.fst =
      [("eth0".toList, defaultNetworkConfig),
         ("eth1".toList, defaultNetworkConfig)].map
        (fun p => mapInterfaceName p.1)) ∧
    exceptFailed (configureNetplanAll
      [("eth0".toList, badAddressCfg)]) = true :=
  ⟨applier_batch_failure_semantics.1 failEth0 "eth0".toList
      defaultNetworkConfig [("eth1".toList, defaultNetworkConfig)]
      "nmcli modify failed".toList (by rfl),
    applier_batch_failure_semantics.2.1 failEth0 _,
    applier_batch_failure_semantics.2.2.1 [("eth0".toList, badAddressCfg)]
      "eth0".toList badAddressCfg (by decide) rfl (by decide) (by rfl)⟩

/-- A NetworkConfig with `dhcp = false` and no address, exactly what the
parser emits for a declared interface without addresses. -/
def emptyStaticCfg : NetworkConfig := ⟨false, [], [], [], []⟩

/-- C6 counterexample: with `dhcp=false` and an empty address, the
OpenWrt, Windows and ifupdown static paths all fail on
`net.ParseCIDR("")` instead of leaving the interface alone. -/
theorem empty_address_errors :
    exceptFailed (configureInterfaceStatic "lan".toList emptyStaticCfg) = true ∧
    exceptFailed (windowsConfigureStatic "Ethernet0".toList emptyStaticCfg) = true ∧
    exceptFailed (configureIfupdownAll [("eth0".toList, emptyStaticCfg)]) = true := by
  decide

/-- C6 amended: only the Netplan builder treats `dhcp=false` with an
empty address as "no static config" — the block carries no `addresses:`
section and no error arises from that interface; the ifupdown, OpenWrt
and Windows static paths reject the empty address with an
invalid-address-format error, because `ParseCIDR` fails on the empty
string. -/
theorem empty_address_semantics :
    (∀ n gw dns rs,
      exceptFailed (netplanInterfaceBlock n ⟨false, [], gw, dns, rs⟩) = false) ∧
    (∀ uci cfg, cfg.dhcp = false → cfg.address = [] →
      exceptFailed (configureInterfaceStatic uci cfg) = true) ∧
    (∀ adapter cfg, cfg.address = [] →
      exceptFailed (windowsConfigureStatic adapter cfg) = true) ∧
    (∀ n cfg, cfg.dhcp = false → cfg.address = [] →
      exceptFailed (ifupdownStanza n cfg) = true) := by
  refine ⟨?_, ?_, ?_, ?_⟩
  · intro n gw dns rs
    simp [netplanInterfaceBlock, exceptFailed]
  · intro uci cfg _ haddr
    simp only [configureInterfaceStatic, haddr]
    rfl
  · intro adapter cfg haddr
    simp only [windowsConfigureStatic, haddr]
    rfl
  · intro n cfg hdhcp haddr
    simp only [ifupdownStanza, hdhcp, haddr]
    simp only [Bool.false_eq_true, if_false]
    rfl

/-- Witness for the amended C6: a concrete empty-address static
NetworkConfig passes through the Netplan builder without error and is
rejected by the OpenWrt, Windows and ifupdown static paths. -/
theorem empty_address_semantics_witness :
    exceptFailed (netplanInterfaceBlock "eth0".toList
      ⟨false, [], [], [], []⟩) = false ∧
    exceptFailed (configureInterfaceStatic "lan".toList emptyStaticCfg) = true ∧
    exceptFailed (windowsConfigureStatic "Ethernet0".toList emptyStaticCfg) = true ∧
    exceptFailed (ifupdownStanza "eth0".toList emptyStaticCfg) = true :=
  ⟨empty_address_semantics.1 "eth0".toList [] [] [],
    empty_address_semantics.2.1 "lan".toList emptyStaticCfg rfl rfl,
    empty_address_semantics.2.2.1 "Ethernet0".toList emptyStaticCfg rfl,
    empty_address_semantics.2.2.2 "eth0".toList emptyStaticCfg rfl rfl⟩

end CyberRange
